import Mathlib

/-!
Shallow embedding of the resumable crawl engine of traders-parser-evm.

The embedding follows the Python sources:
  app/services/manager/db_manager.py      (checkpoint store)
  app/services/manager/proxy_manager.py   (proxy pool)
  app/services/contract/models.py         (API response models, second ParsingStatus enum)
  app/services/contract/services/token_holders_service.py (crawl engine used by main.py)
  app/utils/get_chain.py, app/config/config.py

Machine-level conventions: Python ints are Int, page counters that are
bounded by construction are Int as well; timestamps are abstract ticks
(Nat); file contents are explicit Lean values; fallible code returns
Option or Except.
-/

namespace TradersParser

/-- Python enum members are singletons: members of two distinct enum classes
are never equal under Python ==, even when their .value strings coincide.
The repository defines a ParsingStatus enum twice, once in
app/services/manager/db_manager.py (values not_started, in_progress,
completed, failed) and once in app/services/contract/models.py (values
pending, in_progress, completed, failed, rate_limited).  An enum member is
therefore modelled as the pair of its defining class and its value string;
Lean structural equality on this pair coincides with Python == on enum
members. -/
inductive PyEnumClass
  | dbParsingStatus
  | modelsParsingStatus
  deriving DecidableEq

/-- One Python enum member: the enum class it belongs to plus its value. -/
structure EnumMember where
  cls : PyEnumClass
  value : String
  deriving DecidableEq

/-- db_manager.ParsingStatus.NOT_STARTED -/
def dbNotStarted : EnumMember := ⟨.dbParsingStatus, "not_started"⟩

/-- db_manager.ParsingStatus.IN_PROGRESS -/
def dbInProgress : EnumMember := ⟨.dbParsingStatus, "in_progress"⟩

/-- db_manager.ParsingStatus.COMPLETED -/
def dbCompleted : EnumMember := ⟨.dbParsingStatus, "completed"⟩

/-- db_manager.ParsingStatus.FAILED -/
def dbFailed : EnumMember := ⟨.dbParsingStatus, "failed"⟩

/-- models.ParsingStatus.IN_PROGRESS (the enum imported by token_holders_service.py) -/
def mInProgress : EnumMember := ⟨.modelsParsingStatus, "in_progress"⟩

/-- models.ParsingStatus.COMPLETED -/
def mCompleted : EnumMember := ⟨.modelsParsingStatus, "completed"⟩

/-- models.ParsingStatus.FAILED -/
def mFailed : EnumMember := ⟨.modelsParsingStatus, "failed"⟩

/-- The enum constructor call ParsingStatus(v) in db_manager.py: yields the
member of the db_manager enum with that value, or raises ValueError
(modelled as none). -/
def dbStatusOfValue (v : String) : Option EnumMember :=
  if v = "not_started" ∨ v = "in_progress" ∨ v = "completed" ∨ v = "failed" then
    some ⟨.dbParsingStatus, v⟩
  else
    none

/-- Timestamps (datetime.now() results) are abstract ticks. -/
abbrev DateTime := Nat

/-- Model of the ISO-8601 timestamp strings stored in the JSON files.
datetime.isoformat is injective and datetime.fromisoformat inverts it, while
a malformed string makes fromisoformat raise; so a well-formed ISO string is
identified with the timestamp it denotes and a malformed one is kept as an
opaque string. -/
inductive IsoString
  | ofDT (d : DateTime)
  | malformed (s : String)
  deriving DecidableEq

/-- datetime.isoformat of a timestamp. -/
def isoformat (d : DateTime) : IsoString := .ofDT d

/-- datetime.fromisoformat: parses a well-formed ISO string back to its
timestamp, raises (none) on a malformed one. -/
def fromisoformat : IsoString → Option DateTime
  | .ofDT d => some d
  | .malformed _ => none

/-- Python truthiness of the ISO string: the isoformat of a datetime is a
nonempty string hence truthy; a malformed string is falsy iff empty. -/
def IsoString.isTruthy : IsoString → Bool
  | .ofDT _ => true
  | .malformed s => !s.isEmpty

/-- db_manager.TokenHolder (dataclass). -/
structure TokenHolder where
  address : String
  balance : String
  processed : Bool := false
  processed_at : Option DateTime := none
  deriving DecidableEq

/-- The JSON object form of a holder as written by TokenHolder.to_dict.
models.TokenHolder.to_dict writes only address and balance; since every
reader accesses the other keys with .get defaults (processed False,
processed_at None), an object written by the models class is represented
with those default field values. -/
structure TokenHolderDict where
  address : String
  balance : String
  processed : Bool := false
  processed_at : Option IsoString := none
  deriving DecidableEq

/-- A holder entry as it appears in JSON data: TokenHolder.from_dict (and the
upstream response data lists) accept either a bare address string or an
object. -/
inductive HolderData
  | str (s : String)
  | obj (d : TokenHolderDict)
  deriving DecidableEq

/-- The address extracted from a raw holder entry, as computed by the
pattern holder if isinstance(holder, str) else holder.get("address"). -/
def HolderData.addr : HolderData → String
  | .str s => s
  | .obj d => d.address

/-- db_manager.TokenHolder.to_dict -/
def TokenHolder.to_dict (h : TokenHolder) : TokenHolderDict :=
  { address := h.address
    balance := h.balance
    processed := h.processed
    processed_at := h.processed_at.map isoformat }

/-- db_manager.TokenHolder.from_dict: a bare string becomes a holder with
balance "0"; an object is read field-by-field, where processed_at is parsed
only when truthy (non-None, nonempty) and a malformed timestamp raises
(none propagates to the caller). -/
def TokenHolder.from_dict : HolderData → Option TokenHolder
  | .str s => some { address := s, balance := "0" }
  | .obj d =>
    match d.processed_at with
    | none => some { address := d.address, balance := d.balance, processed := d.processed }
    | some iso =>
      if iso.isTruthy then
        match fromisoformat iso with
        | some t =>
          some { address := d.address, balance := d.balance, processed := d.processed,
                 processed_at := some t }
        | none => none
      else
        some { address := d.address, balance := d.balance, processed := d.processed }

/-- db_manager.ParsingProgress (dataclass). -/
structure ParsingProgress where
  contract_address : String
  current_page : Int
  total_pages : Option Int
  last_processed_at : DateTime
  status : EnumMember
  error_message : Option String := none
  deriving DecidableEq

/-- The JSON object form of a progress record, as written by
ParsingProgress.to_dict. -/
structure ParsingProgressDict where
  contract_address : String
  current_page : Int
  total_pages : Option Int
  last_processed_at : IsoString
  status : String
  error_message : Option String
  deriving DecidableEq

/-- db_manager.ParsingProgress.to_dict -/
def ParsingProgress.to_dict (p : ParsingProgress) : ParsingProgressDict :=
  { contract_address := p.contract_address
    current_page := p.current_page
    total_pages := p.total_pages
    last_processed_at := isoformat p.last_processed_at
    status := p.status.value
    error_message := p.error_message }

/-- db_manager.ParsingProgress.from_dict: reads the fields back; parsing the
timestamp or constructing ParsingStatus(status) can raise, which the
function does not catch (none propagates to the caller). -/
def ParsingProgress.from_dict (d : ParsingProgressDict) : Option ParsingProgress :=
  match fromisoformat d.last_processed_at with
  | none => none
  | some t =>
    match dbStatusOfValue d.status with
    | none => none
    | some s =>
      some { contract_address := d.contract_address
             current_page := d.current_page
             total_pages := d.total_pages
             last_processed_at := t
             status := s
             error_message := d.error_message }

/-- db_manager.ProcessedContract (dataclass). -/
structure ProcessedContract where
  address : String
  chain : String
  processed_at : DateTime
  holders_count : Int
  holders : List TokenHolder
  status : EnumMember := dbCompleted
  deriving DecidableEq

/-- The JSON object form of a processed contract, as written by
ProcessedContract.to_dict.  processed_at is an Option because from_dict
treats a non-string value there as absent (isinstance check); to_dict
always writes a string. -/
structure ProcessedContractDict where
  address : String
  chain : String
  processed_at : Option IsoString
  holders_count : Int
  holders : List HolderData
  status : String
  deriving DecidableEq

/-- db_manager.ProcessedContract.to_dict -/
def ProcessedContract.to_dict (c : ProcessedContract) : ProcessedContractDict :=
  { address := c.address
    chain := c.chain
    processed_at := some (isoformat c.processed_at)
    holders_count := c.holders_count
    holders := c.holders.map (fun h => HolderData.obj h.to_dict)
    status := c.status.value }

/-- db_manager.ProcessedContract.from_dict: parses the holder list, reads the
timestamp when it is a string (falling back to datetime.now() otherwise) and
parses the status; the whole body is wrapped in try/except returning None,
so any failure yields none. -/
def ProcessedContract.from_dict (now : DateTime) (d : ProcessedContractDict) :
    Option ProcessedContract :=
  match d.holders.mapM TokenHolder.from_dict with
  | none => none
  | some holders =>
    match (match d.processed_at with
           | some iso => fromisoformat iso
           | none => some now) with
    | none => none
    | some pa =>
      match dbStatusOfValue d.status with
      | none => none
      | some st =>
        some { address := d.address
               chain := d.chain
               processed_at := pa
               holders_count := d.holders_count
               holders := holders
               status := st }

/-! ### Checkpoint store (db_manager.DBManager)

The three JSON files are modelled as Lean values: processed_contracts.json
holds a list of contract objects, parsing_progress.json and
pending_holders.json hold insertion-ordered string-keyed maps, modelled as
association lists (Python dicts preserve insertion order, assignment to an
existing key keeps its position, del removes it). -/

/-- Lookup in an insertion-ordered dict. -/
def lookupA {α : Type} : List (String × α) → String → Option α
  | [], _ => none
  | (k, v) :: rest, key => if k = key then some v else lookupA rest key

/-- Assignment d[key] = v in an insertion-ordered dict. -/
def upsertA {α : Type} : List (String × α) → String → α → List (String × α)
  | [], key, v => [(key, v)]
  | (k, w) :: rest, key, v =>
    if k = key then (key, v) :: rest else (k, w) :: upsertA rest key v

/-- del d[key] in an insertion-ordered dict (keys are unique). -/
def removeA {α : Type} : List (String × α) → String → List (String × α)
  | [], _ => []
  | (k, w) :: rest, key => if k = key then rest else (k, w) :: removeA rest key

/-- The combined contents of the three db files managed by DBManager. -/
structure DBState where
  contracts : List ProcessedContractDict
  progress : List (String × ParsingProgressDict)
  pending : List (String × List HolderData)
  deriving DecidableEq

/-- The state written by DBManager._initialize_db on a fresh directory. -/
def emptyDB : DBState := ⟨[], [], []⟩

/-- db_manager.DBManager.save_parsing_progress: upsert the to_dict form under
the contract address (the surrounding try/except only matters for I/O
failures, handled separately below). -/
def save_parsing_progress (db : DBState) (p : ParsingProgress) : DBState :=
  { db with progress := upsertA db.progress p.contract_address p.to_dict }

/-- db_manager.DBManager.get_parsing_progress: look the address up and parse;
a parse exception is caught and turned into None. -/
def get_parsing_progress (db : DBState) (addr : String) : Option ParsingProgress :=
  match lookupA db.progress addr with
  | some d => ParsingProgress.from_dict d
  | none => none

/-- db_manager.DBManager.remove_parsing_progress -/
def remove_parsing_progress (db : DBState) (addr : String) : DBState :=
  { db with progress := removeA db.progress addr }

/-- The search loop of save_processed_contract and get_processed_contract:
first stored contract object whose address key matches. -/
def findContractDict : List ProcessedContractDict → String → Option ProcessedContractDict
  | [], _ => none
  | d :: rest, addr => if d.address = addr then some d else findContractDict rest addr

/-- db_manager.DBManager.get_processed_contract: find the first matching
object and parse it (from_dict returns None on failure). -/
def get_processed_contract (now : DateTime) (db : DBState) (addr : String) :
    Option ProcessedContract :=
  match findContractDict db.contracts addr with
  | some d => ProcessedContract.from_dict now d
  | none => none

/-- The merge branch of save_processed_contract: keep the existing holders
verbatim, append only incoming holders whose address is not already present,
stamp datetime.now() and recompute holders_count as the merged length. -/
def mergeContract (now : DateTime) (incoming existing : ProcessedContract) :
    ProcessedContract :=
  let existing_addresses := existing.holders.map (fun h => h.address)
  let new_holders := incoming.holders.filter
    (fun h => decide (h.address ∉ existing_addresses))
  let all_holders := existing.holders ++ new_holders
  { address := incoming.address
    chain := incoming.chain
    processed_at := now
    holders_count := (all_holders.length : Int)
    holders := all_holders
    status := incoming.status }

/-- The enumerate loop of save_processed_contract over the stored contract
list: at the first object whose address matches, either merge (when the
stored object parses) or replace it wholesale with the incoming to_dict
(when from_dict returned None), then break.  Returns the updated list and
the contract_exists flag. -/
def updateContractList (now : DateTime) (incoming : ProcessedContract) :
    List ProcessedContractDict → List ProcessedContractDict × Bool
  | [] => ([], false)
  | d :: rest =>
    if d.address = incoming.address then
      match ProcessedContract.from_dict now d with
      | some existing => ((mergeContract now incoming existing).to_dict :: rest, true)
      | none => (incoming.to_dict :: rest, true)
    else
      let r := updateContractList now incoming rest
      (d :: r.1, r.2)

/-- db_manager.DBManager.save_processed_contract: merge or replace the first
matching stored object, append when no object matches, then remove the
progress record when the incoming status equals db_manager
ParsingStatus.COMPLETED (an enum comparison against the db_manager class). -/
def save_processed_contract (now : DateTime) (db : DBState)
    (incoming : ProcessedContract) : DBState :=
  let r := updateContractList now incoming db.contracts
  let contracts1 := if r.2 then r.1 else r.1 ++ [incoming.to_dict]
  let db1 : DBState := { db with contracts := contracts1 }
  if incoming.status = dbCompleted then
    remove_parsing_progress db1 incoming.address
  else
    db1

/-- db_manager.DBManager.get_pending_holders: parse the stored holder list;
the try/except turns a parse exception into the empty list. -/
def get_pending_holders (db : DBState) (addr : String) : List TokenHolder :=
  match lookupA db.pending addr with
  | some l =>
    match l.mapM TokenHolder.from_dict with
    | some hs => hs
    | none => []
  | none => []

/-- db_manager.DBManager.add_pending_holders: union-by-address merge with the
already-pending holders, then store the to_dict forms. -/
def add_pending_holders (db : DBState) (addr : String)
    (holders : List TokenHolder) : DBState :=
  let existing_holders := get_pending_holders db addr
  let existing_addresses := existing_holders.map (fun h => h.address)
  let new_holders := holders.filter (fun h => decide (h.address ∉ existing_addresses))
  let all_holders := existing_holders ++ new_holders
  let stored := all_holders.map (fun h => HolderData.obj h.to_dict)
  { db with pending := upsertA db.pending addr stored }

/-! ### Raising behaviour of the persistence layer (claim C8)

Whether each save operation raises is modelled in an exception monad.  The
raw json.dump/open call may fail with an I/O error, represented by the
fault parameter of a run. -/

/-- An I/O error message. -/
abbrev IOErr := String

/-- The raw file write (open + json.dump): fails exactly when the run has an
injected fault. -/
def rawWrite (fault : Option IOErr) : Except IOErr Unit :=
  match fault with
  | some e => .error e
  | none => .ok ()

/-- db_manager.DBManager._save_json: the write is wrapped in try/except
Exception that logs and swallows, so _save_json itself never raises. -/
def saveJsonExc (fault : Option IOErr) : Except IOErr Unit :=
  match rawWrite fault with
  | .ok _ => .ok ()
  | .error _ => .ok ()

/-- Raising behaviour of db_manager.DBManager.save_processed_contract: its
body performs the in-memory update and writes through _save_json (the write
of processed_contracts.json, and possibly the progress file write inside
remove_parsing_progress, itself guarded by its own try/except); the final
except/raise clause re-raises whatever escapes the body. -/
def save_processed_contractExc (fault : Option IOErr) (now : DateTime)
    (db : DBState) (incoming : ProcessedContract) : Except IOErr DBState := do
  let _ ← saveJsonExc fault
  let _ ← saveJsonExc fault
  .ok (save_processed_contract now db incoming)

/-- Raising behaviour of db_manager.DBManager.save_parsing_progress: the
write goes through _save_json and the body has its own log-and-swallow
try/except as well. -/
def save_parsing_progressExc (fault : Option IOErr) (db : DBState)
    (p : ParsingProgress) : Except IOErr DBState := do
  let _ ← saveJsonExc fault
  .ok (save_parsing_progress db p)

/-- Raising behaviour of proxy_manager.ProxyManager._save_proxy_data: the
open + json.dump pair has no try/except, so the write failure propagates to
the caller. -/
def save_proxy_dataExc (fault : Option IOErr) : Except IOErr Unit :=
  rawWrite fault

/-! ### Chain resolution and configuration (app/utils/get_chain.py,
app/config/config.py) -/

/-- config.ChainConfig.CHAIN_MAPPING -/
def CHAIN_MAPPING : List (String × String) :=
  [("ethereum", "1"), ("polygon", "137"), ("bsc", "56"), ("avalanche", "43114"),
   ("arbitrum", "42161"), ("optimism", "10"), ("base", "8453"), ("zksync", "324"),
   ("merlin", "4200")]

/-- Python str.lower, written as a structural recursion over the character
data so that it reduces inside the kernel. -/
def pyLower (s : String) : String := ⟨s.data.map Char.toLower⟩

/-- app/utils/get_chain.get_chain_id: lower-case the name and look it up,
None on an unsupported chain. -/
def get_chain_id (chain_name : String) : Option String :=
  lookupA CHAIN_MAPPING (pyLower chain_name)

/-- config.ProxyConfig.MAX_FAILS -/
def MAX_FAILS : Nat := 20

/-- config.ProxyConfig.COOLDOWN_TIME -/
def COOLDOWN_TIME : Nat := 120

/-- config.ProxyConfig.MAX_REQUESTS_PER_PROXY -/
def MAX_REQUESTS_PER_PROXY : Nat := 200

/-! ### Upstream API response model (app/services/contract/models.py) -/

/-- models.SuccessResponse.  Response data entries reuse the HolderData
carrier (a bare address string or an object whose address and balance keys
are read; the extra keys of the carrier are never read by the engine). -/
structure SuccessResponse where
  code : Int
  message : String
  data : List HolderData
  next_page : Option Int
  count : Int
  deriving DecidableEq

/-- models.ErrorResponse -/
structure ErrorResponse where
  code : Int
  message : String
  deriving DecidableEq

/-- The response payload held by ApiResponse: either a SuccessResponse or an
ErrorResponse. -/
inductive RespBody
  | success (r : SuccessResponse)
  | failure (e : ErrorResponse)
  deriving DecidableEq

/-- The message attribute, present on both payload dataclasses. -/
def RespBody.message : RespBody → String
  | .success r => r.message
  | .failure e => e.message

/-- models.ApiResponse (wrapper dataclass). -/
structure ApiResponse where
  status_code : Int
  response : Option RespBody
  deriving DecidableEq

/-- The JSON body of an upstream reply; every field is read with a .get
default by from_response, so each is optional. -/
structure RespJson where
  code : Option Int := none
  message : Option String := none
  data : Option (List HolderData) := none
  next_page : Option Int := none
  count : Option Int := none
  deriving DecidableEq

/-- models.ApiResponse.from_response: 2xx status yields a SuccessResponse,
anything else an ErrorResponse, with .get defaults for missing keys. -/
def ApiResponse.from_response (status_code : Int) (d : RespJson) : ApiResponse :=
  if 200 ≤ status_code ∧ status_code < 300 then
    { status_code := status_code
      response := some (.success
        { code := d.code.getD 0
          message := d.message.getD ""
          data := d.data.getD []
          next_page := d.next_page
          count := d.count.getD 0 }) }
  else
    { status_code := status_code
      response := some (.failure { code := d.code.getD 0, message := d.message.getD "" }) }

/-- models.ApiResponse.is_success -/
def ApiResponse.is_success (r : ApiResponse) : Bool :=
  decide (200 ≤ r.status_code ∧ r.status_code < 300)

/-- models.ApiResponse.has_next_page: success, payload is a SuccessResponse
and next_page is not None. -/
def ApiResponse.has_next_page (r : ApiResponse) : Bool :=
  r.is_success &&
    (match r.response with
     | some (.success s) => s.next_page.isSome
     | _ => false)

/-- models.Contract / get_holders Contract dataclass. -/
structure Contract where
  address : String
  chain : String
  deriving DecidableEq

/-- Contract.chain_id property. -/
def Contract.chain_id (c : Contract) : Option String := get_chain_id c.chain

/-! ### Credential pool (api_key_manager.ApiKeyManager)

Plain itertools.cycle over the loaded key list; get_next_key returns None
exactly when no keys were loaded. -/

/-- The key list together with the cycle position. -/
structure ApiKeyManager where
  api_keys : List String
  key_index : Nat
  deriving DecidableEq

/-- ApiKeyManager.get_next_key: None when the list is empty, otherwise the
next key of the cycle. -/
def ApiKeyManager.get_next_key (m : ApiKeyManager) : Option String × ApiKeyManager :=
  match m.api_keys with
  | [] => (none, m)
  | k :: rest =>
    (((k :: rest).get? (m.key_index % (k :: rest).length)),
     { m with key_index := m.key_index + 1 })

/-! ### Proxy pool (app/services/manager/proxy_manager.py) -/

/-- proxy_manager.ProxyStatus (dataclass).  time.time() values are the same
abstract ticks as datetimes. -/
structure ProxyStatus where
  url : String
  is_working : Bool := true
  fails_count : Nat := 0
  last_used : Nat
  cooldown_until : Option Nat := none
  requests_count : Nat := 0
  deriving DecidableEq

/-- The mutable pool: the insertion-ordered url → status dict plus the
round-robin cursor. -/
structure ProxyManagerState where
  proxies : List (String × ProxyStatus)
  current_proxy_index : Nat
  deriving DecidableEq

/-- Point update of one entry of the pool dict. -/
def updateProxy (st : ProxyManagerState) (url : String)
    (f : ProxyStatus → ProxyStatus) : ProxyManagerState :=
  { st with proxies := st.proxies.map (fun kv => if kv.1 = url then (kv.1, f kv.2) else kv) }

/-- proxy_manager.ProxyManager._set_cooldown: stamp cooldown_until at
now + COOLDOWN_TIME and reset requests_count (fails_count untouched). -/
def set_cooldown (now : Nat) (st : ProxyManagerState) (url : String) : ProxyManagerState :=
  updateProxy st url (fun ps =>
    { ps with cooldown_until := some (now + COOLDOWN_TIME), requests_count := 0 })

/-- proxy_manager.ProxyManager._handle_proxy_error: bump fails_count and, at
MAX_FAILS, set is_working to False and enter cooldown. -/
def handle_proxy_error (now : Nat) (st : ProxyManagerState) (url : String) :
    ProxyManagerState :=
  let st1 := updateProxy st url (fun ps => { ps with fails_count := ps.fails_count + 1 })
  match lookupA st1.proxies url with
  | some ps =>
    if MAX_FAILS ≤ ps.fails_count then
      set_cooldown now (updateProxy st1 url (fun q => { q with is_working := false })) url
    else
      st1
  | none => st1

/-- proxy_manager.ProxyManager._handle_proxy_success: reset fails_count, bump
requests_count and stamp last_used. -/
def handle_proxy_success (now : Nat) (st : ProxyManagerState) (url : String) :
    ProxyManagerState :=
  updateProxy st url (fun ps =>
    { ps with fails_count := 0, requests_count := ps.requests_count + 1, last_used := now })

/-- Truthiness-faithful cooldown test of the selection loop: the Python
condition is cooldown_until and time.time() < cooldown_until, so a zero
cooldown stamp is falsy and does not block. -/
def cooldownBlocks (now : Nat) : Option Nat → Bool
  | some t => decide (t ≠ 0 ∧ now < t)
  | none => false

/-- One pass of the while attempts loop of _get_next_available_proxy:
advance the cursor, skip non-working entries, skip entries still in
cooldown, force a cooldown on quota-exhausted entries, otherwise return the
url. -/
def selectLoop (now : Nat) : Nat → ProxyManagerState → Option String × ProxyManagerState
  | 0, st => (none, st)
  | n + 1, st =>
    if st.proxies.length = 0 then (none, st)
    else
      let idx := (st.current_proxy_index + 1) % st.proxies.length
      let st1 : ProxyManagerState := { st with current_proxy_index := idx }
      match st1.proxies.get? idx with
      | none => (none, st1)
      | some kv =>
        if kv.2.is_working = false then selectLoop now n st1
        else if cooldownBlocks now kv.2.cooldown_until then selectLoop now n st1
        else if MAX_REQUESTS_PER_PROXY ≤ kv.2.requests_count then
          selectLoop now n (set_cooldown now st1 kv.1)
        else
          (some kv.1, st1)

/-- proxy_manager.ProxyManager._get_next_available_proxy: scan at most one
full cycle of the pool. -/
def get_next_available_proxy (now : Nat) (st : ProxyManagerState) :
    Option String × ProxyManagerState :=
  selectLoop now st.proxies.length st

/-! ### Crawl engine
(app/services/contract/services/token_holders_service.py)

This is the engine constructed by main.py.  It imports ParsingStatus from
app/services/contract/models.py, while every record it reads back from
DBManager carries members of the db_manager enum; the enum comparisons in
the engine are therefore cross-class comparisons.

The upstream transport is a function from the call counter to the network
outcome of that call; the proxy decorator acquisition is abstracted by the
proxyAvailable flag (when no proxy is eligible the decorator raises and the
run aborts with the exception; the proxy feedback writes only touch the
proxy snapshot file, not the db files traced here). -/

/-- The network-level outcome of one session.get: an HTTP reply whose body
parsed as JSON, or an exception (timeout, connection error, non-JSON body),
which _make_async_request catches and turns into None. -/
inductive NetOutcome
  | reply (status : Int) (body : RespJson)
  | exn

/-- token_holders_service.TokenHoldersService._make_async_request without
the proxy decorator: an unresolvable chain id or a missing (falsy) API key
short-circuit to None before any network call; otherwise the transport is
invoked and an exception during the request is caught to None.  Returns the
response, the advanced key cycle and whether a network call was issued. -/
def makeAsyncRequest (c : Contract) (km : ApiKeyManager) (tr : Nat → NetOutcome)
    (callIdx : Nat) : Option ApiResponse × ApiKeyManager × Bool :=
  match c.chain_id with
  | none => (none, km, false)
  | some _ =>
    let kr := km.get_next_key
    match kr.1 with
    | none => (none, kr.2, false)
    | some k =>
      if k.isEmpty then (none, kr.2, false)
      else
        match tr callIdx with
        | .exn => (none, kr.2, true)
        | .reply status body => (some (ApiResponse.from_response status body), kr.2, true)

/-- token_holders_service.TokenHoldersService._save_progress: build a
ParsingProgress stamped at datetime.now() and store it. -/
def saveProgressStep (now : DateTime) (db : DBState) (addr : String)
    (current_page : Int) (total_pages : Option Int) (status : EnumMember)
    (error_message : Option String) : DBState :=
  save_parsing_progress db
    { contract_address := addr
      current_page := current_page
      total_pages := total_pages
      last_processed_at := now
      status := status
      error_message := error_message }

/-- token_holders_service.TokenHoldersService._save_holders: extract the
address of each raw entry, drop entries already present in the existing
holder list, wrap the rest as TokenHolder(address, balance="0") (the
two-field models dataclass, represented with the default extra fields),
save the merged ProcessedContract and append the genuinely new holders to
the pending queue. -/
def saveHoldersStep (now : DateTime) (db : DBState) (c : Contract)
    (new_holders : List HolderData) (existing_holders : List TokenHolder)
    (status : EnumMember) : DBState :=
  let existing_addresses := existing_holders.map (fun h => h.address)
  let new_token_holders :=
    (new_holders.filter (fun h => decide (h.addr ∉ existing_addresses))).map
      (fun h => ({ address := h.addr, balance := "0" } : TokenHolder))
  let all_token_holders := existing_holders ++ new_token_holders
  let pc : ProcessedContract :=
    { address := c.address
      chain := c.chain
      processed_at := now
      holders_count := (all_token_holders.length : Int)
      holders := all_token_holders
      status := status }
  let db1 := save_processed_contract now db pc
  if new_token_holders.isEmpty then db1
  else add_pending_holders db1 c.address new_token_holders

/-- The mutable state of the page loop of _get_holders_async. -/
structure LoopState where
  db : DBState
  km : ApiKeyManager
  current_page : Int
  all_holders : List HolderData
  requests : List Int

/-- How the page loop ended: a break, the proxy decorator raising (no
eligible proxy), or the modelling fuel running out. -/
inductive LoopOut
  | exited (s : LoopState)
  | raised (s : LoopState)
  | fuel (s : LoopState)

/-- The while True page loop of _get_holders_async (token_holders_service):
request the current page; on a missing or non-2xx response save FAILED
progress (message from the body when a response exists, else the generic
message) and break; on success extend the accumulated raw holders, save
IN_PROGRESS progress (the total_pages hint is getattr of an attribute
SuccessResponse does not define, hence always None), save the holders, and
either break (no next page) or continue at the server-provided next_page.
All statuses written here are members of the models enum. -/
def engineLoop (c : Contract) (tr : Nat → NetOutcome) (now : DateTime)
    (existing_holders : List TokenHolder) (proxyAvailable : Bool) :
    Nat → Nat → LoopState → LoopOut
  | 0, _, s => .fuel s
  | fuel + 1, callIdx, s =>
    if proxyAvailable = false then .raised s
    else
      let mk := makeAsyncRequest c s.km tr callIdx
      let s1 : LoopState :=
        { s with km := mk.2.1
                 requests := if mk.2.2 then s.requests ++ [s.current_page] else s.requests }
      match mk.1 with
      | none =>
        let db1 := saveProgressStep now s1.db c.address s1.current_page none mFailed
          (some "Неизвестная ошибка")
        .exited { s1 with db := db1 }
      | some r =>
        if r.is_success = false then
          let error_msg := match r.response with
            | some body => body.message
            | none => "Неизвестная ошибка"
          let db1 := saveProgressStep now s1.db c.address s1.current_page none mFailed
            (some error_msg)
          .exited { s1 with db := db1 }
        else
          let dataList := match r.response with
            | some (.success sr) => sr.data
            | _ => []
          let s2 : LoopState := { s1 with all_holders := s1.all_holders ++ dataList }
          let db1 := saveProgressStep now s2.db c.address s2.current_page none
            mInProgress none
          let db2 := saveHoldersStep now db1 c s2.all_holders existing_holders mInProgress
          let s3 : LoopState := { s2 with db := db2 }
          if r.has_next_page = false then .exited s3
          else
            let np := match r.response with
              | some (.success sr) => sr.next_page.getD s3.current_page
              | _ => s3.current_page
            engineLoop c tr now existing_holders proxyAvailable fuel (callIdx + 1)
              { s3 with current_page := np }

/-- The observable outcome of one engine run: the returned raw holder list,
the final db files, and the pages requested over the network in order. -/
structure RunResult where
  returned : List HolderData
  db : DBState
  requests : List Int

/-- Outcome of _get_holders_async: a normal return, the propagated
no-proxy exception, or exhausted modelling fuel. -/
inductive RunOut
  | done (r : RunResult)
  | noProxy (db : DBState) (requests : List Int)
  | outOfFuel (db : DBState) (requests : List Int)

/-- The db files after the run, whatever the outcome. -/
def RunOut.dbOf : RunOut → DBState
  | .done r => r.db
  | .noProxy db _ => db
  | .outOfFuel db _ => db

/-- The pages requested over the network during the run. -/
def RunOut.requestsOf : RunOut → List Int
  | .done r => r.requests
  | .noProxy _ reqs => reqs
  | .outOfFuel _ reqs => reqs

/-- The holder list returned to the caller (nothing on an exception). -/
def RunOut.returnedOf : RunOut → Option (List HolderData)
  | .done r => some r.returned
  | _ => none

/-- The part of _get_holders_async from the progress lookup onwards, given
the existing holder list determined by the processed-contract lookup:
resume from current_page only when the stored progress compares equal to
models.ParsingStatus.IN_PROGRESS, run the page loop, and on loop exit save
the accumulated plus existing holders as COMPLETED whenever either list is
nonempty. -/
def getHoldersMain (c : Contract) (keys : List String) (tr : Nat → NetOutcome)
    (now : DateTime) (proxyAvailable : Bool) (fuel : Nat) (db0 : DBState)
    (existing_holders : List TokenHolder) : RunOut :=
  let progress := get_parsing_progress db0 c.address
  let start_page : Int :=
    match progress with
    | some p => if p.status = mInProgress then p.current_page else 1
    | none => 1
  let s0 : LoopState :=
    { db := db0, km := ⟨keys, 0⟩, current_page := start_page,
      all_holders := [], requests := [] }
  match engineLoop c tr now existing_holders proxyAvailable fuel 0 s0 with
  | .fuel s => .outOfFuel s.db s.requests
  | .raised s => .noProxy s.db s.requests
  | .exited s =>
    let db1 :=
      if s.all_holders ≠ [] ∨ existing_holders ≠ [] then
        saveHoldersStep now s.db c s.all_holders existing_holders mCompleted
      else
        s.db
    .done { returned := s.all_holders, db := db1, requests := s.requests }

/-- token_holders_service.TokenHoldersService._get_holders_async: look the
processed contract up; when its status compares equal to
models.ParsingStatus.COMPLETED return the empty list immediately, otherwise
take its holders as the existing holder list and run the page loop. -/
def getHoldersAsync (c : Contract) (keys : List String) (tr : Nat → NetOutcome)
    (now : DateTime) (proxyAvailable : Bool) (fuel : Nat) (db0 : DBState) : RunOut :=
  match get_processed_contract now db0 c.address with
  | some pc =>
    if pc.status = mCompleted then
      .done { returned := [], db := db0, requests := [] }
    else
      getHoldersMain c keys tr now proxyAvailable fuel db0 pc.holders
  | none => getHoldersMain c keys tr now proxyAvailable fuel db0 []

/-! ### Predicates and scenario inputs used by the claims -/

/-- The status value is a member of the db_manager ParsingStatus enum, i.e.
the enum constructor recovers exactly this member from its value.  This is
what the dataclass field annotations of db_manager promise for the status
fields. -/
def IsDbStatus (s : EnumMember) : Prop := dbStatusOfValue s.value = some s

/-- The holder addresses of a stored contract object, extracted the way the
readers extract them. -/
def dictAddrs (d : ProcessedContractDict) : List String := d.holders.map HolderData.addr

/-- The dedup invariant of the spec on a stored contract object: no two
holder entries share an address, and holders_count equals the length of the
holder list. -/
def DictWF (d : ProcessedContractDict) : Prop :=
  (dictAddrs d).Nodup ∧ d.holders_count = (d.holders.length : Int)

/-- The dedup invariant on an in-memory ProcessedContract value. -/
def RecordWF (c : ProcessedContract) : Prop :=
  (c.holders.map (fun h => h.address)).Nodup ∧ c.holders_count = (c.holders.length : Int)

/-- A sequence of save_processed_contract calls, each with its own
datetime.now() stamp. -/
def runSaves : DBState → List (ProcessedContract × DateTime) → DBState
  | db, [] => db
  | db, (c, t) :: rest => runSaves (save_processed_contract t db c) rest

/-- C1 scenario: the crawled contract. -/
def c1Contract : Contract := ⟨"0xa", "ethereum"⟩

/-- C1 scenario: page 1 succeeds with one holder and next_page 2, the second
call replies HTTP 500. -/
def c1Transport : Nat → NetOutcome := fun i =>
  if i = 0 then .reply 200 { data := some [.str "0x1"], next_page := some 2 }
  else .reply 500 { message := some "boom" }

/-- C1 scenario: one engine run from a fresh store. -/
def c1Run : RunOut := getHoldersAsync c1Contract ["key1"] c1Transport 7 true 3 emptyDB

/-- C2 counterexample: a holder appearing twice in one incoming record. -/
def c2DupHolder : TokenHolder := { address := "0xh", balance := "0" }

/-- C2 counterexample: an incoming record with a duplicated holder list and a
holders_count that does not match its length. -/
def c2DupRecord : ProcessedContract :=
  { address := "0xa", chain := "ethereum", processed_at := 0, holders_count := 5,
    holders := [c2DupHolder, c2DupHolder], status := dbCompleted }

/-- C2 witness: a well-formed incoming record. -/
def c2WfRecord : ProcessedContract :=
  { address := "0xa", chain := "ethereum", processed_at := 0, holders_count := 2,
    holders := [{ address := "0x1", balance := "1" }, { address := "0x2", balance := "2" }],
    status := dbCompleted }

/-- C3 scenario: the crawled contract. -/
def c3Contract : Contract := ⟨"0xa", "ethereum"⟩

/-- C3 scenario: a store holding an IN_PROGRESS progress record at page 5. -/
def c3DB : DBState :=
  { contracts := []
    progress := [("0xa", { contract_address := "0xa", current_page := 5, total_pages := none,
                           last_processed_at := .ofDT 0, status := "in_progress",
                           error_message := none })]
    pending := [] }

/-- C3 scenario: every call replies HTTP 500, so the run stops after its
first request and the requested page is observable. -/
def c3Transport : Nat → NetOutcome := fun _ => .reply 500 {}

/-- C3 scenario: the engine run on the stored progress. -/
def c3Run : RunOut := getHoldersAsync c3Contract ["key1"] c3Transport 7 true 2 c3DB

/-- C4 scenario: the crawled contract. -/
def c4Contract : Contract := ⟨"0xa", "ethereum"⟩

/-- C4 scenario: a single page holding one holder and no next page, so any
run completes its pagination immediately. -/
def c4Transport : Nat → NetOutcome := fun _ =>
  .reply 200 { data := some [.str "0x1"], next_page := none }

/-- C4 scenario: the first engine run from a fresh store, which ends with a
COMPLETED processed-contract record. -/
def c4FirstRun : RunOut := getHoldersAsync c4Contract ["key1"] c4Transport 7 true 3 emptyDB

/-- C4 scenario: the store left behind by the first run. -/
def c4DB : DBState := c4FirstRun.dbOf

/-- C4 scenario: a second engine invocation on the completed contract. -/
def c4SecondRun : RunOut := getHoldersAsync c4Contract ["key1"] c4Transport 8 true 3 c4DB

/-- C5 counterexample: the crawled contract. -/
def c5Contract : Contract := ⟨"0xa", "ethereum"⟩

/-- C5 counterexample: page 1 replies HTTP 500 whose JSON body carries an
empty message. -/
def c5Transport : Nat → NetOutcome := fun _ => .reply 500 { message := some "" }

/-- C5 counterexample: the engine run from a fresh store. -/
def c5Run : RunOut := getHoldersAsync c5Contract ["key1"] c5Transport 7 true 2 emptyDB

/-- C6 counterexample: a contract whose chain name resolves to no chain id. -/
def c6Contract : Contract := ⟨"0xa", "unknownchain"⟩

/-- C6 counterexample: the transport is irrelevant because no call reaches
it. -/
def c6Transport : Nat → NetOutcome := fun _ =>
  .reply 200 { data := some [.str "0x1"], next_page := none }

/-- C6 counterexample: the engine run from a fresh store. -/
def c6Run : RunOut := getHoldersAsync c6Contract ["key1"] c6Transport 7 true 2 emptyDB

/-- C7: a fresh single-proxy pool. -/
def c7Pool (url : String) (lastUsed : Nat) : ProxyManagerState :=
  ⟨[(url, { url := url, last_used := lastUsed })], 0⟩

/-- C7: n consecutive _handle_proxy_error calls at time now. -/
def applyErrors (now : Nat) (url : String) : Nat → ProxyManagerState → ProxyManagerState
  | 0, st => st
  | n + 1, st => applyErrors now url n (handle_proxy_error now st url)

/-- C7: the single-proxy pool after MAX_FAILS consecutive failures at time
1000 (cooldown_until therefore 1120). -/
def c7FailedPool : ProxyManagerState := applyErrors 1000 "http://p" MAX_FAILS (c7Pool "http://p" 0)

/-- C7: a single-proxy pool after MAX_FAILS consecutive failures at the
given time. -/
def c7PoolAfter (url : String) (lastUsed now : Nat) : ProxyManagerState :=
  applyErrors now url MAX_FAILS (c7Pool url lastUsed)

/-- C8: a concrete record for the persistence-error evaluation. -/
def c8Record : ProcessedContract :=
  { address := "0xa", chain := "ethereum", processed_at := 0, holders_count := 1,
    holders := [{ address := "0x1", balance := "0" }], status := dbCompleted }

/-- C8: a concrete progress record for the persistence-error evaluation. -/
def c8Progress : ParsingProgress :=
  { contract_address := "0xa", current_page := 1, total_pages := none,
    last_processed_at := 0, status := dbInProgress }

/-- C9 witness: a concrete progress record. -/
def c9Progress : ParsingProgress :=
  { contract_address := "0xa", current_page := 3, total_pages := some 9,
    last_processed_at := 5, status := dbInProgress, error_message := some "e" }

/-- C9 witness: a concrete processed contract with both holder timestamp
shapes. -/
def c9Contract : ProcessedContract :=
  { address := "0xa", chain := "bsc", processed_at := 6, holders_count := 2,
    holders := [{ address := "0x1", balance := "7" },
                { address := "0x2", balance := "8", processed := true, processed_at := some 4 }],
    status := dbCompleted }

/-- C10 witness: a stored contract object whose status string belongs to no
enum member, so from_dict fails on it. -/
def c10BadDict : ProcessedContractDict :=
  { address := "0xa", chain := "ethereum", processed_at := some (.ofDT 0),
    holders_count := 1, holders := [.obj { address := "0xold", balance := "3" }],
    status := "bogus" }

/-- C10 witness: a store holding only the unparseable record. -/
def c10DB : DBState := { contracts := [c10BadDict], progress := [], pending := [] }

/-- C10 witness: the incoming record that will replace the stored one. -/
def c10Incoming : ProcessedContract :=
  { address := "0xa", chain := "ethereum", processed_at := 9, holders_count := 1,
    holders := [{ address := "0xnew", balance := "0" }], status := dbInProgress }

/-! ## Theorems -/

/-- Looking up the key just written always returns the written value. -/
theorem lookupA_upsertA_self {α : Type} (l : List (String × α)) (k : String) (v : α) :
    lookupA (upsertA l k v) k = some v := by
  induction l with
  | nil => simp [upsertA, lookupA]
  | cons kv rest ih =>
    by_cases h : kv.1 = k
    · simp [upsertA, h, lookupA]
    · simpa [upsertA, h, lookupA] using ih

/-- The timestamp round trip of the external datetime library. -/
theorem fromisoformat_isoformat (d : DateTime) : fromisoformat (isoformat d) = some d := rfl

/-- Recovering a db_manager status member from its value tells both its
class and its value. -/
theorem dbStatusOfValue_inv {v : String} {s : EnumMember}
    (h : dbStatusOfValue v = some s) : s.cls = .dbParsingStatus ∧ s.value = v := by
  unfold dbStatusOfValue at h
  by_cases hv : v = "not_started" ∨ v = "in_progress" ∨ v = "completed" ∨ v = "failed"
  · rw [if_pos hv] at h
    cases h
    exact ⟨rfl, rfl⟩
  · rw [if_neg hv] at h
    cases h

/-- A parsed progress record carries a db_manager status member. -/
theorem parsed_progress_status_cls {d : ParsingProgressDict} {p : ParsingProgress}
    (h : ParsingProgress.from_dict d = some p) : p.status.cls = .dbParsingStatus := by
  unfold ParsingProgress.from_dict at h
  cases ht : fromisoformat d.last_processed_at with
  | none => simp only [ht] at h; exact Option.noConfusion h
  | some t =>
    simp only [ht] at h
    cases hs : dbStatusOfValue d.status with
    | none => simp only [hs] at h; exact Option.noConfusion h
    | some s =>
      simp only [hs, Option.some.injEq] at h
      cases h
      exact (dbStatusOfValue_inv hs).1

/-- A parsed processed contract carries a db_manager status member. -/
theorem parsed_contract_status_cls {now : DateTime} {d : ProcessedContractDict}
    {c : ProcessedContract} (h : ProcessedContract.from_dict now d = some c) :
    c.status.cls = .dbParsingStatus := by
  unfold ProcessedContract.from_dict at h
  cases hh : d.holders.mapM TokenHolder.from_dict with
  | none => simp only [hh] at h; exact Option.noConfusion h
  | some hs =>
    simp only [hh] at h
    cases hpa : (match d.processed_at with
                 | some iso => fromisoformat iso
                 | none => some now) with
    | none => simp only [hpa] at h; exact Option.noConfusion h
    | some pa =>
      simp only [hpa] at h
      cases hst : dbStatusOfValue d.status with
      | none => simp only [hst] at h; exact Option.noConfusion h
      | some s =>
        simp only [hst, Option.some.injEq] at h
        cases h
        exact (dbStatusOfValue_inv hst).1

/-- A member of the db_manager enum never compares equal to a member of the
models enum. -/
theorem db_member_ne_models {s t : EnumMember} (hs : s.cls = .dbParsingStatus)
    (ht : t.cls = .modelsParsingStatus) : s ≠ t := by
  intro he
  rw [he, ht] at hs
  cases hs

/-- Serializing one holder and reading it back yields the same holder. -/
theorem tokenHolder_roundtrip (h : TokenHolder) :
    TokenHolder.from_dict (HolderData.obj h.to_dict) = some h := by
  cases h with
  | mk address balance processed processed_at =>
    cases processed_at with
    | none => rfl
    | some d => rfl

/-- Serializing a holder list and reading it back yields the same list. -/
theorem holders_roundtrip (l : List TokenHolder) :
    (l.map (fun h => HolderData.obj h.to_dict)).mapM TokenHolder.from_dict = some l := by
  induction l with
  | nil => rfl
  | cons h t ih =>
    rw [List.map_cons, List.mapM_cons, tokenHolder_roundtrip, ih]
    rfl

/-- A successful holder parse preserves the extracted address. -/
theorem tokenHolder_from_dict_addr {hd : HolderData} {h : TokenHolder}
    (hp : TokenHolder.from_dict hd = some h) : h.address = hd.addr := by
  cases hd with
  | str s => cases hp; rfl
  | obj d =>
    cases d with
    | mk a b pr pa =>
      cases pa with
      | none => cases hp; rfl
      | some iso =>
        cases iso with
        | ofDT t => cases hp; rfl
        | malformed s =>
          simp only [TokenHolder.from_dict] at hp
          by_cases he : (IsoString.malformed s).isTruthy
          · rw [if_pos he] at hp
            simp [fromisoformat] at hp
          · rw [if_neg he] at hp
            cases hp; rfl

/-- A successful parse of a stored holder list preserves the address
sequence. -/
theorem mapM_from_dict_addrs {l : List HolderData} {hs : List TokenHolder}
    (h : l.mapM TokenHolder.from_dict = some hs) :
    hs.map (fun x => x.address) = l.map HolderData.addr := by
  induction l generalizing hs with
  | nil => cases h; rfl
  | cons hd tl ih =>
    rw [List.mapM_cons] at h
    cases h1 : TokenHolder.from_dict hd with
    | none => rw [h1] at h; cases h
    | some x =>
      rw [h1] at h
      cases h2 : tl.mapM TokenHolder.from_dict with
      | none => rw [h2] at h; cases h
      | some xs =>
        rw [h2] at h
        cases h
        simp [tokenHolder_from_dict_addr h1, ih h2]

/-- A successful contract parse recovers the holder list from the stored
one. -/
theorem from_dict_holders {now : DateTime} {d : ProcessedContractDict}
    {c : ProcessedContract} (h : ProcessedContract.from_dict now d = some c) :
    d.holders.mapM TokenHolder.from_dict = some c.holders := by
  unfold ProcessedContract.from_dict at h
  cases hh : d.holders.mapM TokenHolder.from_dict with
  | none => simp only [hh] at h; exact Option.noConfusion h
  | some hs =>
    simp only [hh] at h
    cases hpa : (match d.processed_at with
                 | some iso => fromisoformat iso
                 | none => some now) with
    | none => simp only [hpa] at h; exact Option.noConfusion h
    | some pa =>
      simp only [hpa] at h
      cases hst : dbStatusOfValue d.status with
      | none => simp only [hst] at h; exact Option.noConfusion h
      | some s =>
        simp only [hst, Option.some.injEq] at h
        cases h
        rfl

/-- C9: serializing then deserializing any ParsingProgress or
ProcessedContract (whose status field is, per the dataclass annotations, a
member of the db_manager ParsingStatus enum) yields a value equal to the
original in every field. -/
theorem c9_serialization_roundtrip :
    (∀ p : ParsingProgress, IsDbStatus p.status →
        ParsingProgress.from_dict p.to_dict = some p) ∧
    (∀ (now : DateTime) (c : ProcessedContract), IsDbStatus c.status →
        ProcessedContract.from_dict now c.to_dict = some c) := by
  constructor
  · intro p hp
    rw [IsDbStatus] at hp
    cases p with
    | mk ca cp tp lpa st em =>
      simp only [ParsingProgress.to_dict, ParsingProgress.from_dict,
        fromisoformat_isoformat] at hp ⊢
      rw [hp]
  · intro now c hc
    rw [IsDbStatus] at hc
    cases c with
    | mk addr chain pa cnt hs st =>
      simp only [ProcessedContract.to_dict, ProcessedContract.from_dict,
        holders_roundtrip, fromisoformat_isoformat] at hc ⊢
      rw [hc]

/-- C9 witness: the round trip evaluated at concrete records. -/
theorem c9_serialization_roundtrip_witness :
    ParsingProgress.from_dict c9Progress.to_dict = some c9Progress ∧
    ProcessedContract.from_dict 0 c9Contract.to_dict = some c9Contract :=
  ⟨c9_serialization_roundtrip.1 c9Progress (by unfold IsDbStatus; decide),
   c9_serialization_roundtrip.2 0 c9Contract (by unfold IsDbStatus; decide)⟩

/-- When no stored object matches the incoming address, the update loop
leaves the list unchanged and reports the contract as not found. -/
theorem updateContractList_not_found {l : List ProcessedContractDict} {now : DateTime}
    {inc : ProcessedContract} (h : findContractDict l inc.address = none) :
    updateContractList now inc l = (l, false) := by
  induction l with
  | nil => rfl
  | cons d rest ih =>
    unfold findContractDict at h
    by_cases hd : d.address = inc.address
    · rw [if_pos hd] at h; exact Option.noConfusion h
    · rw [if_neg hd] at h
      unfold updateContractList
      rw [if_neg hd, ih h]

/-- At the first stored object matching the incoming address, the update
loop installs the merged object when the stored one parses and the incoming
to_dict otherwise, and that object is what a subsequent lookup finds. -/
theorem updateContractList_found {l : List ProcessedContractDict} {now : DateTime}
    {inc : ProcessedContract} {d : ProcessedContractDict}
    (h : findContractDict l inc.address = some d) :
    (updateContractList now inc l).2 = true ∧
    findContractDict (updateContractList now inc l).1 inc.address =
      some (match ProcessedContract.from_dict now d with
            | some e => (mergeContract now inc e).to_dict
            | none => inc.to_dict) := by
  induction l with
  | nil => exact Option.noConfusion h
  | cons x rest ih =>
    unfold findContractDict at h
    by_cases hx : x.address = inc.address
    · rw [if_pos hx] at h
      injection h with hxd
      subst hxd
      unfold updateContractList
      rw [if_pos hx]
      cases hfd : ProcessedContract.from_dict now x with
      | some e =>
        simp only [hfd]
        refine ⟨trivial, ?_⟩
        have ha : (mergeContract now inc e).to_dict.address = inc.address := rfl
        unfold findContractDict
        rw [if_pos ha]
      | none =>
        simp only [hfd]
        refine ⟨trivial, ?_⟩
        have ha : inc.to_dict.address = inc.address := rfl
        unfold findContractDict
        rw [if_pos ha]
    · rw [if_neg hx] at h
      unfold updateContractList
      rw [if_neg hx]
      obtain ⟨ih1, ih2⟩ := ih h
      refine ⟨ih1, ?_⟩
      have hstep :
          findContractDict (x :: (updateContractList now inc rest).1) inc.address =
            findContractDict (updateContractList now inc rest).1 inc.address := by
        simp only [findContractDict]
        rw [if_neg hx]
      exact hstep.trans ih2


/-- Searching an appended list passes through a miss on the first part. -/
theorem findContractDict_append {l1 l2 : List ProcessedContractDict} {a : String}
    (h : findContractDict l1 a = none) :
    findContractDict (l1 ++ l2) a = findContractDict l2 a := by
  induction l1 with
  | nil => rfl
  | cons x rest ih =>
    unfold findContractDict at h
    by_cases hx : x.address = a
    · rw [if_pos hx] at h; exact Option.noConfusion h
    · rw [if_neg hx] at h
      have hstep : findContractDict ((x :: rest) ++ l2) a = findContractDict (rest ++ l2) a := by
        simp only [List.cons_append, findContractDict]
        rw [if_neg hx]
        rfl
      exact hstep.trans (ih h)


/-- The contracts list written by save_processed_contract (the final status
check only touches the progress file). -/
theorem save_processed_contract_contracts (now : DateTime) (db : DBState)
    (inc : ProcessedContract) :
    (save_processed_contract now db inc).contracts =
      (if (updateContractList now inc db.contracts).2
       then (updateContractList now inc db.contracts).1
       else (updateContractList now inc db.contracts).1 ++ [inc.to_dict]) := by
  unfold save_processed_contract remove_parsing_progress
  by_cases hs : inc.status = dbCompleted
  · rw [if_pos hs]
  · rw [if_neg hs]

/-- What a lookup at the incoming address finds after
save_processed_contract: the merged object, the wholesale replacement, or
the appended insert. -/
theorem find_after_save (now : DateTime) (db : DBState) (inc : ProcessedContract) :
    findContractDict (save_processed_contract now db inc).contracts inc.address =
      some (match findContractDict db.contracts inc.address with
            | none => inc.to_dict
            | some d =>
              match ProcessedContract.from_dict now d with
              | some e => (mergeContract now inc e).to_dict
              | none => inc.to_dict) := by
  rw [save_processed_contract_contracts]
  cases hf : findContractDict db.contracts inc.address with
  | none =>
    rw [updateContractList_not_found hf]
    simp only [Bool.false_eq_true, if_false]
    rw [findContractDict_append hf]
    have ha : inc.to_dict.address = inc.address := rfl
    unfold findContractDict
    rw [if_pos ha]
  | some d =>
    obtain ⟨h1, h2⟩ := @updateContractList_found db.contracts now inc d hf
    rw [h1]
    simp only [if_true]
    exact h2

/-- C10: when the stored record at the incoming address does not parse,
save_processed_contract replaces it wholesale with the incoming to_dict, so
every previously stored holder under that address is discarded. -/
theorem c10_unparseable_record_replaced (now : DateTime) (db : DBState)
    (inc : ProcessedContract) (d : ProcessedContractDict)
    (h1 : findContractDict db.contracts inc.address = some d)
    (h2 : ProcessedContract.from_dict now d = none) :
    findContractDict (save_processed_contract now db inc).contracts inc.address =
      some inc.to_dict := by
  rw [find_after_save]
  simp only [h1, h2]

/-- C10 witness: a stored record with an unknown status string is replaced
by the incoming record. -/
theorem c10_unparseable_record_replaced_witness :
    findContractDict (save_processed_contract 9 c10DB c10Incoming).contracts
      c10Incoming.address = some c10Incoming.to_dict :=
  c10_unparseable_record_replaced 9 c10DB c10Incoming c10BadDict (by decide) (by decide)

/-- Serializing a record keeps its holder address sequence. -/
theorem to_dict_dictAddrs (c : ProcessedContract) :
    dictAddrs c.to_dict = c.holders.map (fun h => h.address) := by
  unfold dictAddrs ProcessedContract.to_dict
  rw [List.map_map]
  rfl

/-- A well-formed record serializes to a well-formed stored object. -/
theorem recordWF_to_dict {c : ProcessedContract} (h : RecordWF c) : DictWF c.to_dict := by
  obtain ⟨h1, h2⟩ := h
  refine ⟨?_, ?_⟩
  · rw [to_dict_dictAddrs]
    exact h1
  · show c.to_dict.holders_count = (c.to_dict.holders.length : Int)
    unfold ProcessedContract.to_dict
    simpa using h2

/-- The merge branch keeps the store well-formed: the retained existing
holders are pairwise distinct by the store invariant, the appended incoming
holders are filtered against them and pairwise distinct by the incoming
invariant, and holders_count is recomputed from the merged length. -/
theorem merge_preserves_WF {now : DateTime} {d : ProcessedContractDict}
    {inc e : ProcessedContract} (hd : DictWF d)
    (he : ProcessedContract.from_dict now d = some e) (hi : RecordWF inc) :
    DictWF (mergeContract now inc e).to_dict := by
  apply recordWF_to_dict
  obtain ⟨hd1, hd2⟩ := hd
  obtain ⟨hi1, hi2⟩ := hi
  have heq : e.holders.map (fun x => x.address) = dictAddrs d :=
    mapM_from_dict_addrs (from_dict_holders he)
  constructor
  · show ((e.holders ++ inc.holders.filter _).map (fun h => h.address)).Nodup
    rw [List.map_append]
    apply List.Nodup.append
    · rw [heq]
      exact hd1
    · exact ((List.filter_sublist _).map _).nodup hi1
    · intro a ha hb
      obtain ⟨x, hxmem, hxa⟩ := List.mem_map.mp hb
      obtain ⟨_, hpred⟩ := List.mem_filter.mp hxmem
      rw [decide_eq_true_iff] at hpred
      apply hpred
      rw [hxa]
      rw [heq] at ha
      rw [← heq] at ha
      exact ha
  · rfl

/-- C2 (amended): provided every incoming record has a duplicate-free
holder list and a holdersCount equal to its length, any sequence of
save_processed_contract calls on one address keeps the stored record for
that address duplicate-free with holdersCount equal to the length of its
holder list (the claim fails for arbitrary incoming records, see the
counterexample: the insert path stores the incoming record verbatim). -/
theorem c2_dedup_invariant_amended (a : String)
    (calls : List (ProcessedContract × DateTime)) :
    ∀ db0 : DBState,
      (∀ d, findContractDict db0.contracts a = some d → DictWF d) →
      (∀ p ∈ calls, p.1.address = a ∧ RecordWF p.1) →
      ∀ d, findContractDict (runSaves db0 calls).contracts a = some d → DictWF d := by
  induction calls with
  | nil =>
    intro db0 h0 _ d hd
    exact h0 d hd
  | cons ct rest ih =>
    intro db0 h0 hc
    obtain ⟨haddr, hwf⟩ := hc ct (List.mem_cons_self ct rest)
    show ∀ d, findContractDict (runSaves (save_processed_contract ct.2 db0 ct.1) rest).contracts a
        = some d → DictWF d
    apply ih
    · intro d hd
      rw [← haddr] at hd
      rw [find_after_save] at hd
      injection hd with hd
      subst hd
      cases hf : findContractDict db0.contracts ct.1.address with
      | none =>
        simp only [hf]
        exact recordWF_to_dict hwf
      | some dOld =>
        simp only [hf]
        cases hfd : ProcessedContract.from_dict ct.2 dOld with
        | none =>
          simp only [hfd]
          exact recordWF_to_dict hwf
        | some e =>
          simp only [hfd]
          have hdOld : DictWF dOld := h0 dOld (haddr ▸ hf)
          exact merge_preserves_WF hdOld hfd hwf
    · intro p hp
      exact hc p (List.mem_cons_of_mem ct hp)

/-- C2 counterexample: a single save of a record carrying the same address
twice and holdersCount 5 is stored verbatim (insert path), so the stored
record breaks both halves of the claimed invariant. -/
theorem c2_dedup_counterexample :
    findContractDict (runSaves emptyDB [(c2DupRecord, 0)]).contracts "0xa" =
      some c2DupRecord.to_dict ∧
    ¬ ((dictAddrs c2DupRecord.to_dict).Nodup ∧
       c2DupRecord.to_dict.holders_count = (c2DupRecord.to_dict.holders.length : Int)) := by
  constructor
  · decide
  · decide

/-- C2 witness: the amended invariant applied to one well-formed save on a
fresh store. -/
theorem c2_dedup_invariant_amended_witness : DictWF c2WfRecord.to_dict := by
  apply c2_dedup_invariant_amended "0xa" [(c2WfRecord, 0)] emptyDB
  · intro d hd
    exact Option.noConfusion hd
  · intro p hp
    rw [List.mem_singleton] at hp
    subst hp
    refine ⟨rfl, ?_, ?_⟩
    · decide
    · decide
  · decide

/-- Updating the only entry of a single-entry pool. -/
theorem updateProxy_single (i : Nat) (url : String) (ps : ProxyStatus)
    (f : ProxyStatus → ProxyStatus) :
    updateProxy ⟨[(url, ps)], i⟩ url f = ⟨[(url, f ps)], i⟩ := by
  simp [updateProxy]

/-- Looking up the only key of a one-entry dict. -/
theorem lookupA_single {α : Type} (k : String) (v : α) : lookupA [(k, v)] k = some v := by
  simp [lookupA]

/-- One _handle_proxy_error step on a single-entry pool. -/
theorem handle_proxy_error_single (now : Nat) (url : String) (i : Nat) (w : Bool)
    (f lu rc : Nat) (cu : Option Nat) :
    handle_proxy_error now ⟨[(url, ⟨url, w, f, lu, cu, rc⟩)], i⟩ url =
      (if MAX_FAILS ≤ f + 1 then
        ⟨[(url, ⟨url, false, f + 1, lu, some (now + COOLDOWN_TIME), 0⟩)], i⟩
      else ⟨[(url, ⟨url, w, f + 1, lu, cu, rc⟩)], i⟩) := by
  unfold handle_proxy_error set_cooldown
  rw [updateProxy_single]
  dsimp only
  rw [lookupA_single]
  dsimp only
  by_cases hm : MAX_FAILS ≤ f + 1
  · rw [if_pos hm, if_pos hm, updateProxy_single, updateProxy_single]
  · rw [if_neg hm, if_neg hm]

/-- MAX_FAILS consecutive failures on a fresh single-entry pool: the entry
ends deactivated with its failure count at MAX_FAILS, its cooldown stamped
and its request count reset. -/
theorem c7_after_max_fails (url : String) (lu now : Nat) :
    c7PoolAfter url lu now =
      ⟨[(url, ⟨url, false, MAX_FAILS, lu, some (now + COOLDOWN_TIME), 0⟩)], 0⟩ := by
  unfold c7PoolAfter c7Pool
  show applyErrors now url 20 _ = _
  norm_num [applyErrors, handle_proxy_error_single, MAX_FAILS, COOLDOWN_TIME]

/-- Selection never yields a deactivated single-entry pool: the is_working
test precedes the cooldown test, whatever the current time. -/
theorem select_single_not_working (later : Nat) (url : String) (f lu rc : Nat)
    (cu : Option Nat) (i : Nat) :
    (get_next_available_proxy later ⟨[(url, ⟨url, false, f, lu, cu, rc⟩)], i⟩).1 = none := by
  simp [get_next_available_proxy, selectLoop, Nat.mod_one]

/-- C7 (amended): after MAX_FAILS consecutive failures a pool entry is
deactivated (isWorking false) with cooldownUntil stamped, its failCount is
left at MAX_FAILS by the cooldown itself, and it stays ineligible for
selection at every later time, even after cooldownUntil elapses, because
selection skips non-working entries and nothing resets isWorking; a
subsequent success would reset failCount to 0. -/
theorem c7_pool_cooldown_amended (url : String) (lu now : Nat) :
    lookupA (c7PoolAfter url lu now).proxies url =
      some ⟨url, false, MAX_FAILS, lu, some (now + COOLDOWN_TIME), 0⟩ ∧
    (∀ later : Nat, (get_next_available_proxy later (c7PoolAfter url lu now)).1 = none) ∧
    (∀ t : Nat,
      (lookupA (handle_proxy_success t (c7PoolAfter url lu now) url).proxies url).map
        (fun ps => ps.fails_count) = some 0) := by
  rw [c7_after_max_fails]
  refine ⟨?_, ?_, ?_⟩
  · exact lookupA_single url _
  · intro later
    exact select_single_not_working later url MAX_FAILS lu 0 (some (now + COOLDOWN_TIME)) 0
  · intro t
    unfold handle_proxy_success
    rw [updateProxy_single, lookupA_single]
    rfl

/-- C7 counterexample: an entry that hit MAX_FAILS at time 1000 has
cooldownUntil 1120; at time 1200 the cooldown no longer blocks, yet
selection still yields nothing because the entry was deactivated and never
reactivated, refuting the claimed renewed eligibility after cooldown. -/
theorem c7_pool_cooldown_counterexample :
    (lookupA c7FailedPool.proxies "http://p").map
      (fun ps => (ps.is_working, ps.fails_count, ps.cooldown_until)) =
      some (false, MAX_FAILS, some 1120) ∧
    cooldownBlocks 1200 (some 1120) = false ∧
    (get_next_available_proxy 1200 c7FailedPool).1 = none := by
  refine ⟨?_, ?_, ?_⟩
  · decide
  · decide
  · decide

/-- _save_json never lets an exception escape. -/
theorem saveJsonExc_ok (fault : Option IOErr) : saveJsonExc fault = .ok () := by
  cases fault <;> rfl

/-- C8 (amended): an I/O failure while writing a db checkpoint file is
caught and logged inside _save_json and never propagates, for
save_processed_contract just as for progress saves (its try/except/raise
never sees the write error); a proxy-pool snapshot write failure is uncaught
and propagates to the caller. -/
theorem c8_persistence_error_amended :
    (∀ (fault : Option IOErr) (now : DateTime) (db : DBState) (inc : ProcessedContract),
       save_processed_contractExc fault now db inc = .ok (save_processed_contract now db inc)) ∧
    (∀ (fault : Option IOErr) (db : DBState) (p : ParsingProgress),
       save_parsing_progressExc fault db p = .ok (save_parsing_progress db p)) ∧
    (∀ e : IOErr, save_proxy_dataExc (some e) = .error e) ∧
    save_proxy_dataExc none = .ok () := by
  refine ⟨?_, ?_, ?_, rfl⟩
  · intro fault now db inc
    cases fault <;> rfl
  · intro fault db p
    cases fault <;> rfl
  · intro e
    rfl

/-- C8 counterexample: with an injected write fault, save_processed_contract
returns normally instead of raising, while the pool snapshot save raises —
the exact opposite of the claimed asymmetry. -/
theorem c8_persistence_error_counterexample :
    save_processed_contractExc (some "io error") 0 emptyDB c8Record =
      .ok (save_processed_contract 0 emptyDB c8Record) ∧
    save_parsing_progressExc (some "io error") emptyDB c8Progress =
      .ok (save_parsing_progress emptyDB c8Progress) ∧
    save_proxy_dataExc (some "io error") = .error "io error" :=
  ⟨rfl, rfl, rfl⟩

/-- C1 (code bug evaluation): page 1 succeeds with one holder, page 2 fails
with HTTP 500, yet on loop exit the engine persists the processed-contract
snapshot with status completed (the post-loop save runs whenever any holder
was accumulated, with no check that the loop ended cleanly), while the
progress record says failed.  The claim requires the final persisted status
to be IN_PROGRESS after an error; the legacy get_holders.py engine does
exactly that, the token_holders_service engine does not. -/
theorem c1_final_snapshot_code_bug :
    RunOut.requestsOf c1Run = [1, 2] ∧
    (lookupA (RunOut.dbOf c1Run).progress "0xa").map (fun d => d.status) = some "failed" ∧
    (findContractDict (RunOut.dbOf c1Run).contracts "0xa").map (fun d => d.status) =
      some "completed" := by
  refine ⟨?_, ?_, ?_⟩
  · decide
  · decide
  · decide

/-- C3 (code bug evaluation): the store holds a progress record that
db_manager reads back as IN_PROGRESS at page 5, yet the engine issues its
first request for page 1: the resume test compares that db_manager enum
member against models.ParsingStatus.IN_PROGRESS, and Python enum members of
distinct classes are never equal, so the resume branch is dead code. -/
theorem c3_resume_code_bug :
    (get_parsing_progress c3DB "0xa").map (fun p => (p.current_page, p.status)) =
      some (5, dbInProgress) ∧
    RunOut.requestsOf c3Run = [1] := by
  refine ⟨?_, ?_⟩
  · decide
  · decide

/-- C4 (code bug evaluation): after a run that stored the contract as
completed, the progress record is still present (save_processed_contract
compares the models COMPLETED member against the db_manager COMPLETED
member, never equal, so it never removes progress), and a second engine
invocation issues a network request for page 1 and returns the holder again
(the completed-skip compares a db_manager member against models.COMPLETED,
also never equal). -/
theorem c4_completion_tombstone_code_bug :
    (findContractDict c4DB.contracts "0xa").map (fun d => d.status) = some "completed" ∧
    (lookupA c4DB.progress "0xa").map (fun d => d.status) = some "in_progress" ∧
    RunOut.requestsOf c4SecondRun = [1] ∧
    RunOut.returnedOf c4SecondRun = some [.str "0x1"] := by
  refine ⟨?_, ?_, ?_, ?_⟩
  · decide
  · decide
  · decide
  · decide

/-- C5 counterexample: when the HTTP 500 body carries an empty message, the
recorded errorMessage is the empty string, refuting the claimed non-empty
errorMessage (status FAILED, page 1 and the empty holder store do hold). -/
theorem c5_first_page_http500_counterexample :
    (lookupA (RunOut.dbOf c5Run).progress "0xa").map
      (fun d => (d.current_page, d.status, d.error_message)) = some (1, "failed", some "") ∧
    (RunOut.dbOf c5Run).contracts = [] := by
  refine ⟨?_, ?_⟩
  · decide
  · decide

/-- C6 counterexample: on an unresolvable chain the run performs no network
request and returns an empty list, but it does write a progress record — a
FAILED one with the generic error message — refuting the claimed absence of
a progress write. -/
theorem c6_config_error_counterexample :
    RunOut.requestsOf c6Run = [] ∧
    RunOut.returnedOf c6Run = some [] ∧
    lookupA (RunOut.dbOf c6Run).progress "0xa" =
      some { contract_address := "0xa", current_page := 1, total_pages := none,
             last_processed_at := isoformat 7, status := "failed",
             error_message := some "Неизвестная ошибка" } := by
  refine ⟨?_, ?_, ?_⟩
  · decide
  · decide
  · decide

/-- A progress record read back through get_parsing_progress carries a
db_manager status member. -/
theorem get_parsing_progress_status_cls {db : DBState} {addr : String}
    {p : ParsingProgress} (h : get_parsing_progress db addr = some p) :
    p.status.cls = .dbParsingStatus := by
  unfold get_parsing_progress at h
  cases hl : lookupA db.progress addr with
  | none => simp only [hl] at h; exact Option.noConfusion h
  | some d =>
    simp only [hl] at h
    exact parsed_progress_status_cls h

/-- A processed contract read back through get_processed_contract carries a
db_manager status member. -/
theorem get_processed_contract_status_cls {now : DateTime} {db : DBState} {addr : String}
    {pc : ProcessedContract} (h : get_processed_contract now db addr = some pc) :
    pc.status.cls = .dbParsingStatus := by
  unfold get_processed_contract at h
  cases hf : findContractDict db.contracts addr with
  | none => simp only [hf] at h; exact Option.noConfusion h
  | some d =>
    simp only [hf] at h
    exact parsed_contract_status_cls h

/-- save_processed_contract with a non-dbCompleted incoming status leaves
the progress file untouched. -/
theorem save_processed_contract_progress_preserved {inc : ProcessedContract}
    (h : ¬ inc.status = dbCompleted) (now : DateTime) (db : DBState) :
    (save_processed_contract now db inc).progress = db.progress := by
  unfold save_processed_contract
  rw [if_neg h]

/-- The engine's holder save never touches the progress file when invoked
with a models-enum status: the removal inside save_processed_contract is
guarded by a comparison against the db_manager COMPLETED member. -/
theorem saveHoldersStep_progress (now : DateTime) (db : DBState) (c : Contract)
    (new : List HolderData) (existing : List TokenHolder) (st : EnumMember)
    (h : ¬ st = dbCompleted) :
    (saveHoldersStep now db c new existing st).progress = db.progress := by
  unfold saveHoldersStep add_pending_holders
  dsimp only
  split
  · exact save_processed_contract_progress_preserved h now db
  · exact save_processed_contract_progress_preserved h now db

/-- Under a configuration error (unresolvable chain or empty key list), the
request helper short-circuits before touching the transport. -/
theorem makeAsyncRequest_config_error {addr chain : String} {keys : List String}
    {tr : Nat → NetOutcome} (idx ci : Nat)
    (hcfg : get_chain_id chain = none ∨ keys = []) :
    makeAsyncRequest ⟨addr, chain⟩ ⟨keys, idx⟩ tr ci = (none, ⟨keys, idx⟩, false) := by
  unfold makeAsyncRequest Contract.chain_id
  rcases hcfg with h | h
  · simp [h]
  · subst h
    cases hch : get_chain_id chain with
    | none => simp
    | some cid =>
      simp [ApiKeyManager.get_next_key]

/-- Under a configuration error the first loop iteration records FAILED
progress with the generic message and breaks, issuing no network call. -/
theorem engineLoop_config_error (addr chain : String) (keys : List String)
    (tr : Nat → NetOutcome) (now : DateTime) (existing : List TokenHolder)
    (n ci idx : Nat) (db : DBState) (cp : Int) (al : List HolderData) (rq : List Int)
    (hcfg : get_chain_id chain = none ∨ keys = []) :
    engineLoop ⟨addr, chain⟩ tr now existing true (n + 1) ci ⟨db, ⟨keys, idx⟩, cp, al, rq⟩ =
      .exited ⟨saveProgressStep now db addr cp none mFailed (some "Неизвестная ошибка"),
               ⟨keys, idx⟩, cp, al, rq⟩ := by
  rw [engineLoop]
  rw [makeAsyncRequest_config_error idx ci hcfg]
  rfl

/-- C6 (amended): an unresolvable chain name or an empty credential pool
short-circuits before any network call and the run returns an empty result,
but — contrary to the claim — it does record progress for the contract: a
FAILED entry at page 1 with the generic error message, exactly like a
transport failure. -/
theorem c6_config_error_amended (addr chain : String) (keys : List String)
    (tr : Nat → NetOutcome) (now : DateTime) (n : Nat) (db0 : DBState)
    (hcfg : get_chain_id chain = none ∨ keys = []) :
    RunOut.requestsOf (getHoldersAsync ⟨addr, chain⟩ keys tr now true (n + 1) db0) = [] ∧
    RunOut.returnedOf (getHoldersAsync ⟨addr, chain⟩ keys tr now true (n + 1) db0) = some [] ∧
    lookupA (RunOut.dbOf (getHoldersAsync ⟨addr, chain⟩ keys tr now true (n + 1) db0)).progress
        addr =
      some { contract_address := addr, current_page := 1, total_pages := none,
             last_processed_at := isoformat now, status := "failed",
             error_message := some "Неизвестная ошибка" } := by
  have hmain : ∀ existing : List TokenHolder,
      RunOut.requestsOf (getHoldersMain ⟨addr, chain⟩ keys tr now true (n + 1) db0 existing)
          = [] ∧
      RunOut.returnedOf (getHoldersMain ⟨addr, chain⟩ keys tr now true (n + 1) db0 existing)
          = some [] ∧
      lookupA (RunOut.dbOf
          (getHoldersMain ⟨addr, chain⟩ keys tr now true (n + 1) db0 existing)).progress addr =
        some { contract_address := addr, current_page := 1, total_pages := none,
               last_processed_at := isoformat now, status := "failed",
               error_message := some "Неизвестная ошибка" } := by
    intro existing
    unfold getHoldersMain
    have hstart : (match get_parsing_progress db0 addr with
        | some p => if p.status = mInProgress then p.current_page else (1 : Int)
        | none => (1 : Int)) = 1 := by
      cases hp : get_parsing_progress db0 addr with
      | none => rfl
      | some p =>
        have hcls := get_parsing_progress_status_cls hp
        simp only []
        rw [if_neg (db_member_ne_models hcls rfl)]
    dsimp only
    rw [hstart]
    rw [engineLoop_config_error addr chain keys tr now existing n 0 0 db0 1 [] [] hcfg]
    dsimp only
    split
    · refine ⟨rfl, rfl, ?_⟩
      dsimp only [RunOut.dbOf]
      rw [saveHoldersStep_progress now _ _ _ existing mCompleted (by decide)]
      unfold saveProgressStep save_parsing_progress
      dsimp only
      exact lookupA_upsertA_self _ _ _
    · refine ⟨rfl, rfl, ?_⟩
      dsimp only [RunOut.dbOf]
      unfold saveProgressStep save_parsing_progress
      dsimp only
      exact lookupA_upsertA_self _ _ _
  unfold getHoldersAsync
  cases hpc : get_processed_contract now db0 addr with
  | none => exact hmain []
  | some pc =>
    have hcls := get_processed_contract_status_cls hpc
    dsimp only
    rw [if_neg (db_member_ne_models hcls
      (show mCompleted.cls = PyEnumClass.modelsParsingStatus from rfl))]
    exact hmain pc.holders

/-- C6 witness: the amended statement evaluated on a concrete unresolvable
chain over a fresh store. -/
theorem c6_config_error_amended_witness :
    RunOut.requestsOf (getHoldersAsync ⟨"0xa", "unknownchain"⟩ ["key1"]
        (fun _ => .reply 200 {}) 7 true 2 emptyDB) = [] ∧
    RunOut.returnedOf (getHoldersAsync ⟨"0xa", "unknownchain"⟩ ["key1"]
        (fun _ => .reply 200 {}) 7 true 2 emptyDB) = some [] ∧
    lookupA (RunOut.dbOf (getHoldersAsync ⟨"0xa", "unknownchain"⟩ ["key1"]
        (fun _ => .reply 200 {}) 7 true 2 emptyDB)).progress "0xa" =
      some { contract_address := "0xa", current_page := 1, total_pages := none,
             last_processed_at := isoformat 7, status := "failed",
             error_message := some "Неизвестная ошибка" } :=
  c6_config_error_amended "0xa" "unknownchain" ["key1"] (fun _ => .reply 200 {}) 7 1 emptyDB
    (Or.inl (by decide))

/-- With a resolvable chain and a nonempty, non-blank key at the front of
the credential cycle, the request helper calls the transport and wraps its
reply. -/
theorem makeAsyncRequest_reply {addr chain cid k : String} {rest : List String}
    {tr : Nat → NetOutcome} {ci : Nat} {st : Int} {body : RespJson}
    (hchain : get_chain_id chain = some cid) (hk : k.isEmpty = false)
    (htr : tr ci = .reply st body) :
    makeAsyncRequest ⟨addr, chain⟩ ⟨k :: rest, 0⟩ tr ci =
      (some (ApiResponse.from_response st body), ⟨k :: rest, 1⟩, true) := by
  unfold makeAsyncRequest Contract.chain_id ApiKeyManager.get_next_key
  simp [hchain, hk, htr]

/-- A first-call HTTP 500 reply makes the loop record FAILED progress with
the message taken from the body (defaulting to the empty string) and break
after exactly one request. -/
theorem engineLoop_first_500 (addr chain cid k : String) (rest : List String)
    (tr : Nat → NetOutcome) (now : DateTime) (existing : List TokenHolder)
    (n ci : Nat) (body : RespJson) (db : DBState) (cp : Int) (al : List HolderData)
    (rq : List Int)
    (hchain : get_chain_id chain = some cid) (hk : k.isEmpty = false)
    (htr : tr ci = .reply 500 body) :
    engineLoop ⟨addr, chain⟩ tr now existing true (n + 1) ci
      ⟨db, ⟨k :: rest, 0⟩, cp, al, rq⟩ =
      .exited ⟨saveProgressStep now db addr cp none mFailed (some (body.message.getD "")),
               ⟨k :: rest, 1⟩, cp, al, rq ++ [cp]⟩ := by
  rw [engineLoop]
  rw [makeAsyncRequest_reply hchain hk htr]
  dsimp only
  have h1 : ApiResponse.from_response 500 body =
      ⟨500, some (.failure ⟨body.code.getD 0, body.message.getD ""⟩)⟩ := by
    unfold ApiResponse.from_response
    rw [if_neg (by norm_num)]
  rw [h1]
  have h2 : (⟨500, some (.failure ⟨body.code.getD 0, body.message.getD ""⟩)⟩
      : ApiResponse).is_success = false := rfl
  rw [h2]
  rfl

/-- C5 (amended): if the very first page request of a fresh contract replies
HTTP 500, the run ends with a FAILED progress record at page 1 whose
errorMessage is the message carried by the error body — possibly the empty
string, not necessarily non-empty — and no holder is stored for the
contract. -/
theorem c5_first_page_http500_amended (addr chain cid k : String) (rest : List String)
    (tr : Nat → NetOutcome) (body : RespJson) (now : DateTime) (n : Nat) (db0 : DBState)
    (hchain : get_chain_id chain = some cid) (hk : k.isEmpty = false)
    (hc : findContractDict db0.contracts addr = none)
    (hp : lookupA db0.progress addr = none)
    (htr : tr 0 = .reply 500 body) :
    getHoldersAsync ⟨addr, chain⟩ (k :: rest) tr now true (n + 1) db0 =
      .done { returned := []
              db := save_parsing_progress db0
                { contract_address := addr, current_page := 1, total_pages := none,
                  last_processed_at := now, status := mFailed,
                  error_message := some (body.message.getD "") }
              requests := [1] } ∧
    findContractDict
        (save_parsing_progress db0
          { contract_address := addr, current_page := 1, total_pages := none,
            last_processed_at := now, status := mFailed,
            error_message := some (body.message.getD "") }).contracts addr = none := by
  refine ⟨?_, hc⟩
  unfold getHoldersAsync get_processed_contract
  rw [hc]
  dsimp only
  unfold getHoldersMain get_parsing_progress
  rw [hp]
  dsimp only
  rw [engineLoop_first_500 addr chain cid k rest tr now [] n 0 body db0 1 [] []
    hchain hk htr]
  dsimp only
  rw [if_neg (by simp)]
  rfl

/-- C5 witness: the amended statement evaluated at a concrete 500 reply
carrying the message "server error". -/
theorem c5_first_page_http500_amended_witness :
    getHoldersAsync ⟨"0xa", "ethereum"⟩ ["key1"]
        (fun _ => .reply 500 { message := some "server error" }) 7 true 2 emptyDB =
      .done { returned := []
              db := save_parsing_progress emptyDB
                { contract_address := "0xa", current_page := 1, total_pages := none,
                  last_processed_at := 7, status := mFailed,
                  error_message := some "server error" }
              requests := [1] } ∧
    findContractDict
        (save_parsing_progress emptyDB
          { contract_address := "0xa", current_page := 1, total_pages := none,
            last_processed_at := 7, status := mFailed,
            error_message := some "server error" }).contracts "0xa" = none :=
  c5_first_page_http500_amended "0xa" "ethereum" "1" "key1" [] _
    { message := some "server error" } 7 1 emptyDB (by decide) (by decide) (by decide)
    (by decide) rfl

end TradersParser
